import Mathlib

/-!
Verification of the Adaptive Load Testing Engine (nodeTest repository).

The development shallowly embeds the JavaScript source:
* `src/config/requestPatterns.js` — weighted method table, the sampling loop
  of `generateRequestSequence`, and `RequestQueueGenerator.generateBatch`;
* `src/modes/load/loadTester.js` — the `weights` table, the sampling loop of
  `generateWeightedRequest`, and the worker cooldown check;
* the `ChainLoadTester` (`runScenario`, `chunkArray`);
* the `MetricCollector` (`recordRequest`, `calculateErrorRates`,
  `calculateAverageLatencies`, `getRecentRateLimitHits`);
* the `CoreTester` structural fingerprint (`createStructuralPattern`).

Ambient randomness (`Math.random()`) is modelled by passing the stream of
drawn values explicitly; ambient time (`Date.now()`) by passing `now`.
-/

namespace NodeTest

/-! ### Weighted sampling (`requestPatterns.js`, `loadTester.js`) -/

/-- The weighted method table `requestWeights.methods` of
`src/config/requestPatterns.js`, as the ordered list of entries that
`Object.entries` enumerates. Weights are the source's integer literals. -/
def requestWeightsMethods : List (String × ℚ) :=
  [("eth_getblockbynumber", 15),
   ("eth_getlogs", 12),
   ("eth_subscribe", 11),
   ("eth_call", 10),
   ("abci_query", 10),
   ("sei_getlogs", 8),
   ("eth_blocknumber", 7),
   ("eth_gettransactionreceipt", 7),
   ("debug_traceblockbynumber", 6),
   ("eth_getbalance", 5),
   ("other", 9)]

/-- Total weight of an ordered weight table (the `reduce` over
`Object.entries` in `generateRequestSequence`). -/
def totalWeight (methods : List (String × ℚ)) : ℚ :=
  (methods.map Prod.snd).sum

/-- The inner selection loop of `generateRequestSequence`
(`requestPatterns.js` lines 29-35): walk the entries in order; if
`random < weight` select the method (`break`), otherwise subtract the
weight and continue.  `none` models a pass through the whole loop with no
`break` (nothing is pushed for that draw). -/
def selectLoop : List (String × ℚ) → ℚ → Option String
  | [], _ => none
  | (method, weight) :: rest, random =>
      if random < weight then some method else selectLoop rest (random - weight)

/-- `requestWeights.generateRequestSequence(totalRequests)` with the stream
of `Math.random()` values supplied explicitly: iteration `i` draws
`source i * totalWeight` and runs the selection loop; a draw that selects
pushes one method onto the sequence. -/
def generateRequestSequence (methods : List (String × ℚ)) (totalRequests : ℕ)
    (source : ℕ → ℚ) : List String :=
  (List.range totalRequests).filterMap
    (fun i => selectLoop methods (source i * totalWeight methods))

/-- The `weights` table of `LoadTester` (`loadTester.js` lines 236-248), in
`Object.entries` order. -/
def loadTesterWeights : List (String × ℚ) :=
  [("other", 30),
   ("eth_getblockreceipts", 12),
   ("sei_getblockbynumber", 10),
   ("block", 9),
   ("eth_gettransactionreceipt", 8),
   ("debug_traceblockbyhash", 7),
   ("tx_search", 6),
   ("block_results", 5),
   ("eth_gettransactioncount", 5),
   ("sei_getseiaddress", 4),
   ("/cosmos/tx/v1beta1/txs", 4)]

/-- The selection loop of `LoadTester.generateWeightedRequest`
(`loadTester.js` lines 250-261): subtract the weight first, then return the
method as soon as the remainder is `<= 0`; falling through the whole table
returns `'other'`. -/
def generateWeightedRequest : List (String × ℚ) → ℚ → String
  | [], _ => "other"
  | (method, weight) :: rest, random =>
      if random - weight ≤ 0 then method else generateWeightedRequest rest (random - weight)

/-- The table paired with its running cumulative weights. -/
def cumulativeWeights : List (String × ℚ) → ℚ → List (String × ℚ)
  | [], _ => []
  | (method, weight) :: rest, acc =>
      (method, acc + weight) :: cumulativeWeights rest (acc + weight)

/-- Modelled from the spec clarification for weighted selection: select the
method whose cumulative weight first strictly exceeds the draw. -/
def specStrictSelect (methods : List (String × ℚ)) (r : ℚ) : Option String :=
  ((cumulativeWeights methods 0).find? (fun p => decide (r < p.2))).map Prod.fst

/-- Modelled from the spec's subtraction phrasing for weighted selection:
select the method at which the running remainder first becomes non-positive,
i.e. whose cumulative weight first reaches or exceeds the draw. -/
def specNonStrictSelect (methods : List (String × ℚ)) (r : ℚ) : Option String :=
  ((cumulativeWeights methods 0).find? (fun p => decide (r ≤ p.2))).map Prod.fst

/-! ### Batch generation (`RequestQueueGenerator.generateBatch`) -/

/-- The keys of `requestWeights.templates` with their HTTP methods
(`requestPatterns.js` lines 42-136).  Note there is no entry for
`'other'`, although `'other'` carries weight 9 in the sampling table.
The time-stamped `createParams` payloads are not modelled; no claim
depends on them. -/
def templates : List (String × String) :=
  [("eth_getblockbynumber", "POST"),
   ("eth_getlogs", "POST"),
   ("eth_subscribe", "POST"),
   ("eth_call", "POST"),
   ("abci_query", "GET"),
   ("sei_getlogs", "GET"),
   ("eth_blocknumber", "POST"),
   ("eth_gettransactionreceipt", "POST"),
   ("debug_traceblockbynumber", "POST"),
   ("eth_getbalance", "POST")]

/-- A generated request descriptor: HTTP method and logical type
(the `method`/`type` fields built in `generateBatch`). -/
structure RequestDescriptor where
  method : String
  type : String
deriving DecidableEq, Repr

/-- `this.patterns.templates[method]` lookup. -/
def lookupTemplate (m : String) : Option String :=
  (templates.find? (fun p => p.1 == m)).map Prod.snd

/-- `RequestQueueGenerator.generateBatch` (`requestPatterns.js` lines
149-161) with the random stream supplied: draw `batchSize` methods with
`generateRequestSequence`, map each to a descriptor through its template,
and drop methods with no template (`.filter(Boolean)`). -/
def generateBatch (batchSize : ℕ) (source : ℕ → ℚ) : List RequestDescriptor :=
  (generateRequestSequence requestWeightsMethods batchSize source).filterMap
    (fun m => (lookupTemplate m).map (fun httpMethod => ⟨httpMethod, m⟩))

/-! ### Structural fingerprint (`CoreTester.createStructuralPattern`) -/

/-- JSON-like response values handled by the fingerprint recursion: the
cases distinguished by `createStructuralPattern` (`Array.isArray`, `null`,
`typeof` object/string/number/boolean). -/
inductive JSValue where
  | null : JSValue
  | bool (b : Bool) : JSValue
  | num (n : ℚ) : JSValue
  | str (s : String) : JSValue
  | arr (elems : List JSValue) : JSValue
  | obj (fields : List (String × JSValue)) : JSValue

/-- The structural patterns `createStructuralPattern` produces: the string
sentinels, single-element arrays, and key-to-pattern objects. -/
inductive Pattern where
  | maxDepth : Pattern
  | emptyArray : Pattern
  | nullSentinel : Pattern
  | stringTag : Pattern
  | numberTag : Pattern
  | booleanTag : Pattern
  | arr (p : Pattern) : Pattern
  | obj (fields : List (String × Pattern)) : Pattern

mutual

/-- `CoreTester.createStructuralPattern(data, depth)` (core tester, lines
190-211): return `'MAX_DEPTH'` once `depth > 3`; arrays become
`'EMPTY_ARRAY'` or the one-element array of the first element's pattern;
`null` becomes `'NULL'`; objects map each key (in order) to the pattern of
its value at `depth + 1` (the source's `Object.keys(...).reduce`, here the
mutual helper `createStructuralPatternFields`); primitives become their
type tags. -/
def createStructuralPattern : JSValue → ℕ → Pattern
  | data, depth =>
    if depth > 3 then .maxDepth
    else
      match data with
      | .arr [] => .emptyArray
      | .arr (x :: _) => .arr (createStructuralPattern x (depth + 1))
      | .null => .nullSentinel
      | .obj fields => .obj (createStructuralPatternFields fields (depth + 1))
      | .str _ => .stringTag
      | .num _ => .numberTag
      | .bool _ => .booleanTag

/-- The `Object.keys(data).reduce` accumulator of `createStructuralPattern`:
every key, in enumeration order, mapped to the pattern of its value. -/
def createStructuralPatternFields : List (String × JSValue) → ℕ → List (String × Pattern)
  | [], _ => []
  | (key, value) :: rest, depth =>
      (key, createStructuralPattern value depth) :: createStructuralPatternFields rest depth

end

/-- `CoreTester.extractResponsePattern(data)` derives the fingerprint of a
response body: the structural pattern of the value starting at depth 0 (the
source additionally serializes it with `JSON.stringify`, a deterministic
function of the pattern). -/
def extractResponsePattern (data : JSValue) : Pattern :=
  createStructuralPattern data 0

/-- Structural agreement with a remaining depth budget: the two values have
the same constructor, the same array lengths, the same key sets in the same
order, and the same primitive type tags, recursively until the budget is
exhausted; primitive values themselves are unconstrained.  A budget of `b`
at depth `d` constrains levels `d, d+1, ..., d+b-1`. -/
def skeletonEqGo : ℕ → JSValue → JSValue → Bool
  | 0, _, _ => true
  | Nat.succ b, x, y =>
      match x, y with
      | .null, .null => true
      | .bool _, .bool _ => true
      | .num _, .num _ => true
      | .str _, .str _ => true
      | .arr xs, .arr ys =>
          xs.length == ys.length &&
          (xs.zip ys).all (fun p => skeletonEqGo b p.1 p.2)
      | .obj fs, .obj gs =>
          fs.length == gs.length &&
          (fs.zip gs).all (fun p => p.1.1 == p.2.1 && skeletonEqGo b p.1.2 p.2.2)
      | _, _ => false

/-- Agreement of key sets, key order, nesting structure and primitive type
tags on depths 0 through 3 — the levels `createStructuralPattern` inspects
before its sentinel cut-off. -/
def structAgreeUpToDepth3 (x y : JSValue) : Bool :=
  skeletonEqGo 4 x y

/-! ### Scenario execution (`ChainLoadTester.runScenario`, `chunkArray`) -/

/-- `ChainLoadTester.chunkArray(array, size)`: slices of `size` consecutive
elements taken at indices `0, size, 2*size, ...`.  The JS loop never runs
on an empty array; for `size = 0` on a non-empty array it would not
terminate, so the model returns `[]` there (that case is unreachable from
`runScenario`, which always passes `min(length, ceil(... ) ) ≥ 1` on
non-empty query lists). -/
def chunkArray {α : Type} : List α → ℕ → List (List α)
  | [], _ => []
  | _ :: _, 0 => []
  | x :: rest, Nat.succ s =>
      (x :: rest).take (s + 1) :: chunkArray ((x :: rest).drop (s + 1)) (s + 1)
termination_by l _ => l.length
decreasing_by
  simp [List.length_drop]
  omega

/-- A load scenario as built by `generateTestScenarios`: a weight and an
ordered request list. -/
structure Scenario (α : Type) where
  weight : ℚ
  queries : List α

/-- The effective concurrency of `runScenario`:
`Math.ceil(this.config.initialConcurrency * scenario.weight)`. -/
def effectiveConcurrency (initialConcurrency : ℚ) (weight : ℚ) : ℤ :=
  ⌈initialConcurrency * weight⌉

/-- The batch structure issued by `ChainLoadTester.runScenario` (lines
455-466): batch size `min(scenario.queries.length, concurrency)`, batches
produced by `chunkArray` and executed strictly sequentially (in list
order), the requests of one batch issued concurrently via `Promise.all`. -/
def runScenarioBatches {α : Type} (initialConcurrency : ℚ) (s : Scenario α) :
    List (List α) :=
  let concurrency := (effectiveConcurrency initialConcurrency s.weight).toNat
  let batchSize := min s.queries.length concurrency
  chunkArray s.queries batchSize

/-! ### Metric collection (`MetricCollector`) -/

/-- The `data` argument of `MetricCollector.recordRequest`. -/
structure RequestData where
  duration : ℤ
  success : Bool
  rateLimited : Bool
deriving DecidableEq

/-- The mutable state of a `MetricCollector`: per-endpoint maps (modelled
as total functions with the JS "absent" default — `0` / `[]`), and the
shared rate-limit hit log. -/
structure MetricsState where
  requestCounts : String → ℕ
  latencies : String → List ℤ
  timestamps : String → List ℤ
  errors : String → ℕ
  rateLimitHits : ℕ
  rateLimitTimestamps : List ℤ

/-- The constructor state of `MetricCollector`: empty maps, zero hits. -/
def initialMetrics : MetricsState :=
  { requestCounts := fun _ => 0
    latencies := fun _ => []
    timestamps := fun _ => []
    errors := fun _ => 0
    rateLimitHits := 0
    rateLimitTimestamps := [] }

/-- `MetricCollector.recordRequest(endpoint, data)` (metricCollector.js
lines 614-642 of the bundled source), with `Date.now()` supplied as `now`:
increment the endpoint's count, push the duration onto its latency list,
push `now` onto its timestamp list, increment its error count when
`success` is false, and log a rate-limit hit when `rateLimited` is set. -/
def recordRequest (endpoint : String) (data : RequestData) (now : ℤ)
    (st : MetricsState) : MetricsState :=
  { requestCounts :=
      Function.update st.requestCounts endpoint (st.requestCounts endpoint + 1)
    latencies :=
      Function.update st.latencies endpoint (st.latencies endpoint ++ [data.duration])
    timestamps :=
      Function.update st.timestamps endpoint (st.timestamps endpoint ++ [now])
    errors :=
      if data.success then st.errors
      else Function.update st.errors endpoint (st.errors endpoint + 1)
    rateLimitHits :=
      if data.rateLimited then st.rateLimitHits + 1 else st.rateLimitHits
    rateLimitTimestamps :=
      if data.rateLimited then st.rateLimitTimestamps ++ [now]
      else st.rateLimitTimestamps }

/-- One recorded event: the endpoint, the payload of `recordRequest`, and
the `Date.now()` value at recording time. -/
structure MetricEvent where
  endpoint : String
  data : RequestData
  now : ℤ
deriving DecidableEq

/-- A whole run of `recordRequest` calls, in order, from the constructor
state. -/
def recordAll (events : List MetricEvent) : MetricsState :=
  events.foldl (fun st ev => recordRequest ev.endpoint ev.data ev.now st) initialMetrics

/-- JavaScript `Math.round` on the non-negative rationals that arise here:
round half up. -/
def mathRound (q : ℚ) : ℤ :=
  ⌊q + 1 / 2⌋

/-- One entry of `MetricCollector.calculateErrorRates()`:
`errors / count * 100` for an endpoint (the source then formats it with
`toFixed(2)`). -/
def calculateErrorRate (st : MetricsState) (endpoint : String) : ℚ :=
  (st.errors endpoint : ℚ) / (st.requestCounts endpoint : ℚ) * 100

/-- One entry of `MetricCollector.calculateAverageLatencies()`: the mean of
the endpoint's latency list rounded with `Math.round`, present only when
the list is non-empty. -/
def calculateAverageLatency (st : MetricsState) (endpoint : String) : Option ℤ :=
  if (st.latencies endpoint).length > 0 then
    some (mathRound (((st.latencies endpoint).sum : ℚ) / ((st.latencies endpoint).length : ℚ)))
  else none

/-- `MetricCollector.getRecentRateLimitHits(windowMs = 60000)`: the number
of logged rate-limit timestamps `ts` with `now - ts <= windowMs`. -/
def getRecentRateLimitHits (st : MetricsState) (now : ℤ) (windowMs : ℤ) : ℕ :=
  (st.rateLimitTimestamps.filter (fun ts => decide (now - ts ≤ windowMs))).length

/-! ### Worker pool backpressure (`LoadTester.startWorker`) -/

/-- The shared state a `LoadTester` worker sees: the one shared
`MetricCollector` and the live-worker set. -/
structure LoadTesterState where
  metricCollector : MetricsState
  runningWorkers : List String

/-- The cooldown a worker inserts at the end of each loop iteration, before
pulling its next descriptor from the queue (`loadTester.js` lines 112-115):
`await sleep(1000)` exactly when `getRecentRateLimitHits() > 10`, reading
the shared collector with the default 60000 ms window.  The worker's own id
plays no part — every worker evaluates the same shared check. -/
def workerCooldownDelay (pool : LoadTesterState) (workerId : String) (now : ℤ) : ℤ :=
  if getRecentRateLimitHits pool.metricCollector now 60000 > 10 then 1000 else 0

/-! ## Theorems -/

/-! ### C1: weighted selection -/

theorem cumulativeWeights_find_strict (methods : List (String × ℚ)) (acc r : ℚ) :
    ((cumulativeWeights methods acc).find? (fun p => decide (r < p.2))).map Prod.fst
      = selectLoop methods (r - acc) := by
  induction methods generalizing acc with
  | nil => simp [cumulativeWeights, selectLoop]
  | cons head rest ih =>
    obtain ⟨m, w⟩ := head
    simp only [cumulativeWeights, selectLoop]
    by_cases h : r < acc + w
    · rw [List.find?_cons_of_pos _ (by simpa using h)]
      have h2 : r - acc < w := by linarith
      simp [h2]
    · rw [List.find?_cons_of_neg _ (by simpa using h)]
      have h2 : ¬ (r - acc < w) := fun hc => h (by linarith)
      rw [if_neg h2, sub_sub]
      exact ih (acc + w)

theorem selectLoop_isSome_of_lt_total (methods : List (String × ℚ)) (r : ℚ)
    (h0 : 0 ≤ r) (h1 : r < totalWeight methods) : (selectLoop methods r).isSome := by
  induction methods generalizing r with
  | nil =>
    simp only [totalWeight, List.map_nil, List.sum_nil] at h1
    linarith
  | cons head rest ih =>
    obtain ⟨m, w⟩ := head
    simp only [selectLoop]
    by_cases h : r < w
    · simp [h]
    · rw [if_neg h]
      push_neg at h
      have htot : totalWeight ((m, w) :: rest) = w + totalWeight rest := by
        simp [totalWeight]
      exact ih (r - w) (by linarith) (by rw [htot] at h1; linarith)

theorem cumulativeWeights_find_nonstrict (methods : List (String × ℚ)) (acc r : ℚ) :
    ((((cumulativeWeights methods acc).find? (fun p => decide (r ≤ p.2))).map
        Prod.fst).getD "other")
      = generateWeightedRequest methods (r - acc) := by
  induction methods generalizing acc with
  | nil => simp [cumulativeWeights, generateWeightedRequest]
  | cons head rest ih =>
    obtain ⟨m, w⟩ := head
    simp only [cumulativeWeights, generateWeightedRequest]
    by_cases h : r ≤ acc + w
    · rw [List.find?_cons_of_pos _ (by simpa using h)]
      have h2 : r - acc - w ≤ 0 := by linarith
      simp [h2]
    · rw [List.find?_cons_of_neg _ (by simpa using h)]
      have h2 : ¬ (r - acc - w ≤ 0) := fun hc => h (by linarith)
      rw [if_neg h2, sub_sub]
      exact ih (acc + w)

/-- C1 (amended).  The selection loop of `generateRequestSequence` does
select, for every draw, exactly the method whose cumulative weight first
strictly exceeds the draw, and any draw in `[0, totalWeight)` selects some
method; but the loop of `generateWeightedRequest` instead selects the first
method whose running remainder is non-positive after subtraction — the
method whose cumulative weight first reaches *or equals* the draw — so at a
boundary draw equal to a cumulative weight the two loops disagree. -/
theorem weighted_selection_loops :
    (∀ (methods : List (String × ℚ)) (r : ℚ),
        selectLoop methods r = specStrictSelect methods r) ∧
    (∀ (methods : List (String × ℚ)) (r : ℚ),
        0 ≤ r → r < totalWeight methods → (selectLoop methods r).isSome) ∧
    (∀ (methods : List (String × ℚ)) (r : ℚ),
        generateWeightedRequest methods r = (specNonStrictSelect methods r).getD "other") := by
  refine ⟨fun methods r => ?_, selectLoop_isSome_of_lt_total, fun methods r => ?_⟩
  · have h := cumulativeWeights_find_strict methods 0 r
    rw [sub_zero] at h
    exact h.symm.trans rfl
  · have h := cumulativeWeights_find_nonstrict methods 0 r
    rw [sub_zero] at h
    exact h.symm.trans rfl

/-- C1 witness: the amended statement evaluated at concrete draws on the
source's two weight tables. -/
theorem weighted_selection_loops_witness :
    selectLoop requestWeightsMethods 20 = specStrictSelect requestWeightsMethods 20 ∧
    ((0 : ℚ) ≤ 20 ∧ (20 : ℚ) < totalWeight requestWeightsMethods ∧
      (selectLoop requestWeightsMethods 20).isSome) ∧
    generateWeightedRequest loadTesterWeights 30
      = (specNonStrictSelect loadTesterWeights 30).getD "other" :=
  ⟨weighted_selection_loops.1 requestWeightsMethods 20,
   ⟨by norm_num,
    by norm_num [totalWeight, requestWeightsMethods],
    weighted_selection_loops.2.1 requestWeightsMethods 20 (by norm_num)
      (by norm_num [totalWeight, requestWeightsMethods])⟩,
   weighted_selection_loops.2.2 loadTesterWeights 30⟩

/-- C1 counterexample: at the boundary draw `r = 30` on the `LoadTester`
weight table (30 is exactly the first cumulative weight),
`generateWeightedRequest` returns `'other'`, while the
`generateRequestSequence` loop — and the strict cumulative-exceeds rule —
select `'eth_getblockreceipts'`; so no single rule, in particular not the
claimed strict one, describes both sampling loops at boundary draws. -/
theorem weighted_selection_boundary_counterexample :
    generateWeightedRequest loadTesterWeights 30 = "other" ∧
    selectLoop loadTesterWeights 30 = some "eth_getblockreceipts" ∧
    specStrictSelect loadTesterWeights 30 = some "eth_getblockreceipts" ∧
    "other" ≠ "eth_getblockreceipts" := by
  refine ⟨by norm_num [generateWeightedRequest, loadTesterWeights],
    by norm_num [selectLoop, loadTesterWeights], ?_, by decide⟩
  norm_num [specStrictSelect, cumulativeWeights, loadTesterWeights]

/-! ### C2, C3: structural fingerprint -/

theorem pattern_maxDepth (x : JSValue) (depth : ℕ) (h : depth > 3) :
    createStructuralPattern x depth = .maxDepth := by
  rw [createStructuralPattern.eq_def]
  simp [h]

theorem pattern_null (depth : ℕ) (h : depth ≤ 3) :
    createStructuralPattern .null depth = .nullSentinel := by
  rw [createStructuralPattern.eq_def]
  simp [Nat.not_lt.mpr h]

theorem pattern_bool (b : Bool) (depth : ℕ) (h : depth ≤ 3) :
    createStructuralPattern (.bool b) depth = .booleanTag := by
  rw [createStructuralPattern.eq_def]
  simp [Nat.not_lt.mpr h]

theorem pattern_num (n : ℚ) (depth : ℕ) (h : depth ≤ 3) :
    createStructuralPattern (.num n) depth = .numberTag := by
  rw [createStructuralPattern.eq_def]
  simp [Nat.not_lt.mpr h]

theorem pattern_str (s : String) (depth : ℕ) (h : depth ≤ 3) :
    createStructuralPattern (.str s) depth = .stringTag := by
  rw [createStructuralPattern.eq_def]
  simp [Nat.not_lt.mpr h]

theorem pattern_arrNil (depth : ℕ) (h : depth ≤ 3) :
    createStructuralPattern (.arr []) depth = .emptyArray := by
  rw [createStructuralPattern.eq_def]
  simp [Nat.not_lt.mpr h]

theorem pattern_arrCons (x : JSValue) (t : List JSValue) (depth : ℕ) (h : depth ≤ 3) :
    createStructuralPattern (.arr (x :: t)) depth
      = .arr (createStructuralPattern x (depth + 1)) := by
  rw [createStructuralPattern.eq_def]
  simp [Nat.not_lt.mpr h]

theorem pattern_obj (fs : List (String × JSValue)) (depth : ℕ) (h : depth ≤ 3) :
    createStructuralPattern (.obj fs) depth
      = .obj (createStructuralPatternFields fs (depth + 1)) := by
  rw [createStructuralPattern.eq_def]
  simp [Nat.not_lt.mpr h]

theorem patternFields_congr (d : ℕ) (P : JSValue → JSValue → Prop)
    (hP : ∀ u v, P u v → createStructuralPattern u d = createStructuralPattern v d) :
    ∀ fs gs : List (String × JSValue), fs.length = gs.length →
      (∀ p ∈ fs.zip gs, p.1.1 = p.2.1 ∧ P p.1.2 p.2.2) →
      createStructuralPatternFields fs d = createStructuralPatternFields gs d := by
  intro fs
  induction fs with
  | nil =>
    intro gs hlen _
    cases gs with
    | nil => rfl
    | cons g gt => simp at hlen
  | cons f ft ih =>
    intro gs hlen hall
    cases gs with
    | nil => simp at hlen
    | cons g gt =>
      obtain ⟨k, v⟩ := f
      obtain ⟨k₂, v₂⟩ := g
      have hhead := hall ((k, v), (k₂, v₂)) (by simp)
      simp only at hhead
      have htail : ∀ p ∈ ft.zip gt, p.1.1 = p.2.1 ∧ P p.1.2 p.2.2 := by
        intro p hp
        exact hall p (by simp [List.zip_cons_cons, hp])
      simp only [createStructuralPatternFields]
      rw [hhead.1, hP v v₂ hhead.2, ih gt (by simpa using hlen) htail]

theorem skeletonEqGo_pattern_eq :
    ∀ b depth : ℕ, depth + b = 4 →
      ∀ x y : JSValue, skeletonEqGo b x y = true →
        createStructuralPattern x depth = createStructuralPattern y depth := by
  intro b
  induction b with
  | zero =>
    intro depth hd x y _
    rw [pattern_maxDepth x depth (by omega), pattern_maxDepth y depth (by omega)]
  | succ b ih =>
    intro depth hd x y h
    have hle : depth ≤ 3 := by omega
    have hd1 : (depth + 1) + b = 4 := by omega
    cases x with
    | null =>
      cases y <;> simp [skeletonEqGo] at h
      rfl
    | bool b1 =>
      cases y <;> simp [skeletonEqGo] at h
      rw [pattern_bool _ _ hle, pattern_bool _ _ hle]
    | num n1 =>
      cases y <;> simp [skeletonEqGo] at h
      rw [pattern_num _ _ hle, pattern_num _ _ hle]
    | str s1 =>
      cases y <;> simp [skeletonEqGo] at h
      rw [pattern_str _ _ hle, pattern_str _ _ hle]
    | arr xs =>
      cases y with
      | arr ys =>
        simp only [skeletonEqGo, Bool.and_eq_true, beq_iff_eq, List.all_eq_true] at h
        obtain ⟨hlen, hall⟩ := h
        cases xs with
        | nil =>
          cases ys with
          | nil => rfl
          | cons y0 yt => simp at hlen
        | cons x0 xt =>
          cases ys with
          | nil => simp at hlen
          | cons y0 yt =>
            rw [pattern_arrCons _ _ _ hle, pattern_arrCons _ _ _ hle]
            have h0 := hall (x0, y0) (by simp [List.zip_cons_cons])
            rw [ih (depth + 1) hd1 x0 y0 h0]
      | null => simp [skeletonEqGo] at h
      | bool b2 => simp [skeletonEqGo] at h
      | num n2 => simp [skeletonEqGo] at h
      | str s2 => simp [skeletonEqGo] at h
      | obj gs => simp [skeletonEqGo] at h
    | obj fs =>
      cases y with
      | obj gs =>
        simp only [skeletonEqGo, Bool.and_eq_true, beq_iff_eq, List.all_eq_true] at h
        obtain ⟨hlen, hall⟩ := h
        rw [pattern_obj _ _ hle, pattern_obj _ _ hle]
        have hfields := patternFields_congr (depth + 1)
          (fun u v => skeletonEqGo b u v = true)
          (fun u v hv => ih (depth + 1) hd1 u v hv) fs gs hlen
          (by
            intro p hp
            have := hall p hp
            exact ⟨this.1, this.2⟩)
        rw [hfields]
      | null => simp [skeletonEqGo] at h
      | bool b2 => simp [skeletonEqGo] at h
      | num n2 => simp [skeletonEqGo] at h
      | str s2 => simp [skeletonEqGo] at h
      | arr ys => simp [skeletonEqGo] at h

/-- Two structurally identical responses that differ in every primitive
value (keys, order, nesting and type tags agree on depths 0 through 3). -/
def sampleShapeA : JSValue :=
  .obj [("a", .num 1), ("b", .str "x"), ("c", .arr [.obj [("d", .bool true)]])]

/-- The partner of `sampleShapeA`: same skeleton, different primitives. -/
def sampleShapeB : JSValue :=
  .obj [("a", .num 42), ("b", .str "yz"), ("c", .arr [.obj [("d", .bool false)]])]

/-- C3: two values with identical key sets, key order, nesting structure
and primitive type tags on the depths the recursion inspects (0 through 3)
receive equal fingerprints regardless of their primitive values; arrays are
represented by the one-element array of the first element's pattern (the
empty-array sentinel when empty), `null` by the null sentinel, and
primitives by their type tags only. -/
theorem fingerprint_structure_only :
    (∀ x y : JSValue, structAgreeUpToDepth3 x y = true →
        extractResponsePattern x = extractResponsePattern y) ∧
    (∀ depth : ℕ, depth ≤ 3 →
      (∀ (x : JSValue) (t : List JSValue),
          createStructuralPattern (.arr (x :: t)) depth
            = .arr (createStructuralPattern x (depth + 1))) ∧
      createStructuralPattern (.arr []) depth = .emptyArray ∧
      createStructuralPattern .null depth = .nullSentinel ∧
      (∀ s, createStructuralPattern (.str s) depth = .stringTag) ∧
      (∀ n, createStructuralPattern (.num n) depth = .numberTag) ∧
      (∀ b, createStructuralPattern (.bool b) depth = .booleanTag)) := by
  constructor
  · intro x y h
    exact skeletonEqGo_pattern_eq 4 0 rfl x y h
  · intro depth h
    exact ⟨fun x t => pattern_arrCons x t depth h, pattern_arrNil depth h,
      pattern_null depth h, fun s => pattern_str s depth h,
      fun n => pattern_num n depth h, fun b => pattern_bool b depth h⟩

/-- C3 witness: the theorem applied to two concrete responses with the same
shape and different primitive values, and to a concrete array case. -/
theorem fingerprint_structure_only_witness :
    (structAgreeUpToDepth3 sampleShapeA sampleShapeB = true ∧
      extractResponsePattern sampleShapeA = extractResponsePattern sampleShapeB) ∧
    ((0 : ℕ) ≤ 3 ∧ createStructuralPattern (.arr []) 0 = .emptyArray) :=
  ⟨⟨rfl, fingerprint_structure_only.1 sampleShapeA sampleShapeB rfl⟩,
   ⟨by norm_num, (fingerprint_structure_only.2 0 (by norm_num)).2.1⟩⟩

/-- A value whose only leaf sits 3 object levels deep. -/
def nested3 : JSValue :=
  .obj [("a", .obj [("b", .obj [("c", .num 1)])])]

/-- `nested3` extended to 4 levels: same prefix, leaf one level deeper. -/
def nested4 : JSValue :=
  .obj [("a", .obj [("b", .obj [("c", .obj [("d", .num 1)])])])]

/-- `nested4` extended to 5 levels: same prefix, leaf one level deeper. -/
def nested5 : JSValue :=
  .obj [("a", .obj [("b", .obj [("c", .obj [("d", .obj [("e", .num 1)])])])])]

/-- C2 counterexample: the fingerprint of a value nested 5 levels deep is
*not* the fingerprint of the 3-level value with the same prefix — the
recursion still expands the fourth level (depth 3), where the two differ. -/
theorem fingerprint_depth_counterexample :
    createStructuralPattern nested5 0 ≠ createStructuralPattern nested3 0 := by
  have h5 : createStructuralPattern nested5 0
      = .obj [("a", .obj [("b", .obj [("c", .obj [("d", .maxDepth)])])])] := rfl
  have h3 : createStructuralPattern nested3 0
      = .obj [("a", .obj [("b", .obj [("c", .numberTag)])])] := rfl
  rw [h5, h3]
  simp

/-- C2 (amended): the fingerprint recursion is depth-bounded with its
sentinel cut at `depth > 3`, i.e. it expands four levels (depths 0-3): every
subtree reached at depth greater than 3 collapses to the max-depth sentinel
regardless of content, and a value nested 5 levels deep yields exactly the
signature of the value nested 4 levels deep with the same prefix (not the
3-level one). -/
theorem fingerprint_depth_bound :
    (∀ (x : JSValue) (depth : ℕ), depth > 3 →
        createStructuralPattern x depth = .maxDepth) ∧
    createStructuralPattern nested5 0 = createStructuralPattern nested4 0 :=
  ⟨pattern_maxDepth, rfl⟩

/-- C2 witness: the depth cut applied at the concrete depth 4. -/
theorem fingerprint_depth_bound_witness :
    (4 : ℕ) > 3 ∧ createStructuralPattern (.num 1) 4 = .maxDepth :=
  ⟨by norm_num, fingerprint_depth_bound.1 (.num 1) 4 (by norm_num)⟩

/-! ### C4: scenario batching -/

theorem chunkArray_join_aux {α : Type} (s : ℕ) (hs : 0 < s) :
    ∀ (n : ℕ) (l : List α), l.length = n → (chunkArray l s).flatten = l := by
  intro n
  induction n using Nat.strong_induction_on with
  | _ n ih =>
    intro l hn
    cases l with
    | nil => simp [chunkArray]
    | cons x rest =>
      obtain ⟨s', rfl⟩ : ∃ s', s = s' + 1 := ⟨s - 1, by omega⟩
      simp only [List.length_cons] at hn
      rw [chunkArray]
      simp only [List.flatten_cons]
      rw [ih (((x :: rest).drop (s' + 1)).length) (by simp; omega) _ rfl]
      exact List.take_append_drop (s' + 1) (x :: rest)

theorem chunkArray_join {α : Type} (s : ℕ) (hs : 0 < s) (l : List α) :
    (chunkArray l s).flatten = l :=
  chunkArray_join_aux s hs l.length l rfl

theorem chunkArray_batch_le_aux {α : Type} (s : ℕ) :
    ∀ (n : ℕ) (l : List α), l.length = n → ∀ c ∈ chunkArray l s, c.length ≤ s := by
  intro n
  induction n using Nat.strong_induction_on with
  | _ n ih =>
    intro l hn
    cases l with
    | nil => simp [chunkArray]
    | cons x rest =>
      cases s with
      | zero => simp [chunkArray]
      | succ s' =>
        simp only [List.length_cons] at hn
        rw [chunkArray]
        intro c hc
        rcases List.mem_cons.mp hc with h | h
        · subst h
          simpa using List.length_take_le (s' + 1) (x :: rest)
        · exact ih (((x :: rest).drop (s' + 1)).length) (by simp; omega) _ rfl c h

theorem chunkArray_batch_le {α : Type} (s : ℕ) (l : List α) :
    ∀ c ∈ chunkArray l s, c.length ≤ s :=
  chunkArray_batch_le_aux s l.length l rfl

theorem chunkArray_four_two {α : Type} (a b c d : α) :
    chunkArray [a, b, c, d] 2 = [[a, b], [c, d]] := by
  rw [chunkArray]
  norm_num
  rw [chunkArray]
  norm_num
  rw [chunkArray]

/-- C4: the executor runs a scenario at effective concurrency
`ceil(baseConcurrency * weight)`, chunks the request list into batches of
size `min(listLength, effectiveConcurrency)`, executes the batches in list
order with each batch's requests issued together, every batch carries at
most `batchSize` requests and the batches partition the request list in
order; in particular a scenario with 4 descriptors at effective
concurrency 2 is issued as exactly the 2 batches of size 2. -/
theorem runScenario_batching :
    (∀ (α : Type) (l : List α) (s : ℕ), 0 < s →
        (chunkArray l s).flatten = l ∧ ∀ c ∈ chunkArray l s, c.length ≤ s) ∧
    (∀ (α : Type) (base : ℚ) (sc : Scenario α) (a b c d : α),
        sc.queries = [a, b, c, d] → effectiveConcurrency base sc.weight = 2 →
        runScenarioBatches base sc = [[a, b], [c, d]]) := by
  constructor
  · intro α l s hs
    exact ⟨chunkArray_join s hs l, chunkArray_batch_le s l⟩
  · intro α base sc a b c d hq hc
    unfold runScenarioBatches
    rw [hq, hc]
    norm_num
    exact chunkArray_four_two a b c d

/-- C4 witness: a concrete 4-descriptor scenario at base concurrency 2 and
weight 1, plus the chunk properties at a concrete list. -/
theorem runScenario_batching_witness :
    ((0 : ℕ) < 2 ∧
      (chunkArray [10, 20, 30] 2).flatten = [10, 20, 30] ∧
      ∀ c ∈ chunkArray [10, 20, 30] 2, c.length ≤ 2) ∧
    ((Scenario.mk 1 [10, 20, 30, 40]).queries = [10, 20, 30, 40] ∧
      effectiveConcurrency 2 (Scenario.mk 1 [10, 20, 30, 40]).weight = 2 ∧
      runScenarioBatches 2 (Scenario.mk (α := ℕ) 1 [10, 20, 30, 40])
        = [[10, 20], [30, 40]]) := by
  refine ⟨⟨by norm_num, (runScenario_batching.1 ℕ [10, 20, 30] 2 (by norm_num)).1,
      (runScenario_batching.1 ℕ [10, 20, 30] 2 (by norm_num)).2⟩,
    ⟨rfl, ?_, runScenario_batching.2 ℕ 2 (Scenario.mk 1 [10, 20, 30, 40]) 10 20 30 40 rfl ?_⟩⟩
  · show effectiveConcurrency 2 1 = 2
    norm_num [effectiveConcurrency]
  · show effectiveConcurrency 2 1 = 2
    norm_num [effectiveConcurrency]

/-! ### C5: pool-wide backpressure -/

/-- C5: whenever strictly more than 10 rate-limit timestamps fall inside
the trailing 60000-unit window of the shared collector, every running
worker's cooldown before its next queue pull is at least 1000 units — the
check reads the shared counter, so the signal is pool-wide. -/
theorem backpressure_pool_wide :
    ∀ (pool : LoadTesterState) (now : ℤ),
      getRecentRateLimitHits pool.metricCollector now 60000 > 10 →
      ∀ w ∈ pool.runningWorkers, workerCooldownDelay pool w now ≥ 1000 := by
  intro pool now h w _
  simp [workerCooldownDelay, h]

/-- A pool state with 11 rate-limit hits at time 0 and two live workers. -/
def backpressurePool : LoadTesterState :=
  { metricCollector :=
      { initialMetrics with rateLimitTimestamps := [0, 0, 0, 0, 0, 0, 0, 0, 0, 0, 0] }
    runningWorkers := ["w1", "w2"] }

/-- C5 witness: 11 hits inside the window delay a concrete worker. -/
theorem backpressure_pool_wide_witness :
    getRecentRateLimitHits backpressurePool.metricCollector 60000 60000 > 10 ∧
    "w2" ∈ backpressurePool.runningWorkers ∧
    workerCooldownDelay backpressurePool "w2" 60000 ≥ 1000 := by
  refine ⟨by decide, by decide, backpressure_pool_wide backpressurePool 60000 (by decide)
    "w2" (by decide)⟩

/-! ### C6, C7, C10: metric aggregation -/

theorem recordRequest_requestCounts (ev : MetricEvent) (st : MetricsState) (e : String) :
    (recordRequest ev.endpoint ev.data ev.now st).requestCounts e
      = st.requestCounts e + (if ev.endpoint == e then 1 else 0) := by
  by_cases h : ev.endpoint = e
  · subst h
    simp [recordRequest]
  · have hbeq : (ev.endpoint == e) = false := by simp [h]
    have hne : e ≠ ev.endpoint := fun hh => h hh.symm
    simp [recordRequest, hbeq, Function.update_noteq hne]

theorem recordRequest_errors (ev : MetricEvent) (st : MetricsState) (e : String) :
    (recordRequest ev.endpoint ev.data ev.now st).errors e
      = st.errors e + (if ev.endpoint == e && !ev.data.success then 1 else 0) := by
  by_cases hs : ev.data.success
  · simp [recordRequest, hs]
  · by_cases h : ev.endpoint = e
    · subst h
      simp [recordRequest, hs]
    · have hbeq : (ev.endpoint == e) = false := by simp [h]
      have hne : e ≠ ev.endpoint := fun hh => h hh.symm
      simp [recordRequest, hs, hbeq, Function.update_noteq hne]

theorem recordRequest_latencies (ev : MetricEvent) (st : MetricsState) (e : String) :
    (recordRequest ev.endpoint ev.data ev.now st).latencies e
      = st.latencies e ++ (if ev.endpoint == e then [ev.data.duration] else []) := by
  by_cases h : ev.endpoint = e
  · subst h
    simp [recordRequest]
  · have hbeq : (ev.endpoint == e) = false := by simp [h]
    have hne : e ≠ ev.endpoint := fun hh => h hh.symm
    simp [recordRequest, hbeq, Function.update_noteq hne]

theorem foldl_record_requestCounts (evs : List MetricEvent) :
    ∀ (st : MetricsState) (e : String),
      (evs.foldl (fun st ev => recordRequest ev.endpoint ev.data ev.now st) st).requestCounts e
        = st.requestCounts e + evs.countP (fun ev => ev.endpoint == e) := by
  induction evs with
  | nil => intro st e; simp
  | cons ev rest ih =>
    intro st e
    rw [List.foldl_cons, ih, List.countP_cons, recordRequest_requestCounts]
    by_cases h : (ev.endpoint == e) <;> simp [h] <;> omega

theorem foldl_record_errors (evs : List MetricEvent) :
    ∀ (st : MetricsState) (e : String),
      (evs.foldl (fun st ev => recordRequest ev.endpoint ev.data ev.now st) st).errors e
        = st.errors e + evs.countP (fun ev => ev.endpoint == e && !ev.data.success) := by
  induction evs with
  | nil => intro st e; simp
  | cons ev rest ih =>
    intro st e
    rw [List.foldl_cons, ih, List.countP_cons, recordRequest_errors]
    by_cases h : (ev.endpoint == e && !ev.data.success) <;> simp [h] <;> omega

theorem foldl_record_latencies (evs : List MetricEvent) :
    ∀ (st : MetricsState) (e : String),
      (evs.foldl (fun st ev => recordRequest ev.endpoint ev.data ev.now st) st).latencies e
        = st.latencies e
            ++ (evs.filter (fun ev => ev.endpoint == e)).map (fun ev => ev.data.duration) := by
  induction evs with
  | nil => intro st e; simp
  | cons ev rest ih =>
    intro st e
    rw [List.foldl_cons, ih, recordRequest_latencies, List.filter_cons]
    by_cases h : (ev.endpoint == e) <;> simp [h]

theorem recordAll_requestCounts (evs : List MetricEvent) (e : String) :
    (recordAll evs).requestCounts e = evs.countP (fun ev => ev.endpoint == e) := by
  unfold recordAll
  rw [foldl_record_requestCounts]
  simp [initialMetrics]

theorem recordAll_errors (evs : List MetricEvent) (e : String) :
    (recordAll evs).errors e = evs.countP (fun ev => ev.endpoint == e && !ev.data.success) := by
  unfold recordAll
  rw [foldl_record_errors]
  simp [initialMetrics]

theorem recordAll_latencies (evs : List MetricEvent) (e : String) :
    (recordAll evs).latencies e
      = (evs.filter (fun ev => ev.endpoint == e)).map (fun ev => ev.data.duration) := by
  unfold recordAll
  rw [foldl_record_latencies]
  simp [initialMetrics]

/-- C6: recording the same multiset of events in any permutation yields,
for every endpoint, the same request count, the same error rate and the
same average latency. -/
theorem metric_aggregation_order_independent :
    ∀ evs₁ evs₂ : List MetricEvent, evs₁.Perm evs₂ →
      ∀ e : String,
        (recordAll evs₁).requestCounts e = (recordAll evs₂).requestCounts e ∧
        calculateErrorRate (recordAll evs₁) e = calculateErrorRate (recordAll evs₂) e ∧
        calculateAverageLatency (recordAll evs₁) e
          = calculateAverageLatency (recordAll evs₂) e := by
  intro evs₁ evs₂ hperm e
  have hcount : (recordAll evs₁).requestCounts e = (recordAll evs₂).requestCounts e := by
    rw [recordAll_requestCounts, recordAll_requestCounts]
    exact hperm.countP_eq _
  have herr : (recordAll evs₁).errors e = (recordAll evs₂).errors e := by
    rw [recordAll_errors, recordAll_errors]
    exact hperm.countP_eq _
  have hlat : ((recordAll evs₁).latencies e).Perm ((recordAll evs₂).latencies e) := by
    rw [recordAll_latencies, recordAll_latencies]
    exact (hperm.filter _).map _
  refine ⟨hcount, ?_, ?_⟩
  · unfold calculateErrorRate
    rw [hcount, herr]
  · unfold calculateAverageLatency
    rw [hlat.length_eq, hlat.sum_eq]

/-- C6 witness: two concrete two-event permutations of each other. -/
theorem metric_aggregation_order_independent_witness :
    ([⟨"a", ⟨5, true, false⟩, 0⟩, ⟨"a", ⟨9, false, false⟩, 1⟩] :
        List MetricEvent).Perm
      [⟨"a", ⟨9, false, false⟩, 1⟩, ⟨"a", ⟨5, true, false⟩, 0⟩] ∧
    calculateAverageLatency
        (recordAll [⟨"a", ⟨5, true, false⟩, 0⟩, ⟨"a", ⟨9, false, false⟩, 1⟩]) "a"
      = calculateAverageLatency
        (recordAll [⟨"a", ⟨9, false, false⟩, 1⟩, ⟨"a", ⟨5, true, false⟩, 0⟩]) "a" :=
  ⟨by decide,
   (metric_aggregation_order_independent _ _ (by decide) "a").2.2⟩

/-- C7: an error is only recorded together with a count increment, so
`errors(endpoint) <= count(endpoint)` holds after every `recordRequest`
step (the step preserves it) and after every whole run from the initial
state, and the reported error rate is exactly `errors / count * 100`
(formatted by `toFixed(2)` in the source). -/
theorem metric_count_ge_errors :
    (∀ (st : MetricsState) (endpoint : String) (d : RequestData) (now : ℤ) (e : String),
        st.errors e ≤ st.requestCounts e →
        (recordRequest endpoint d now st).errors e
          ≤ (recordRequest endpoint d now st).requestCounts e) ∧
    (∀ (evs : List MetricEvent) (e : String),
        (recordAll evs).errors e ≤ (recordAll evs).requestCounts e ∧
        calculateErrorRate (recordAll evs) e
          = ((recordAll evs).errors e : ℚ) / ((recordAll evs).requestCounts e : ℚ) * 100) := by
  constructor
  · intro st endpoint d now e h
    have hc := recordRequest_requestCounts ⟨endpoint, d, now⟩ st e
    have he := recordRequest_errors ⟨endpoint, d, now⟩ st e
    simp only at hc he
    rw [hc, he]
    by_cases h1 : (endpoint == e) <;> by_cases h2 : d.success <;> simp [h1, h2] <;> omega
  · intro evs e
    refine ⟨?_, rfl⟩
    rw [recordAll_errors, recordAll_requestCounts]
    exact List.countP_mono_left (fun ev _ hp => by
      simp only [Bool.and_eq_true] at hp
      exact hp.1)

/-- C7 witness: the step preservation applied at a concrete state and a
concrete failing request. -/
theorem metric_count_ge_errors_witness :
    initialMetrics.errors "a" ≤ initialMetrics.requestCounts "a" ∧
    (recordRequest "a" ⟨5, false, false⟩ 0 initialMetrics).errors "a"
      ≤ (recordRequest "a" ⟨5, false, false⟩ 0 initialMetrics).requestCounts "a" :=
  ⟨by simp [initialMetrics],
   metric_count_ge_errors.1 initialMetrics "a" ⟨5, false, false⟩ 0 "a"
     (by simp [initialMetrics])⟩

/-- C10: every `recordRequest` call appends exactly one duration to the
endpoint's latency list and exactly one timestamp to its timestamp list,
regardless of `success`; consequently `count(endpoint)` always equals the
length of the endpoint's latency list, and that list is exactly the
durations of *all* the endpoint's events — failed requests included — which
is what `calculateAverageLatencies` averages. -/
theorem record_appends_latency_and_timestamp :
    (∀ (st : MetricsState) (endpoint : String) (d : RequestData) (now : ℤ),
        (recordRequest endpoint d now st).latencies endpoint
            = st.latencies endpoint ++ [d.duration] ∧
        (recordRequest endpoint d now st).timestamps endpoint
            = st.timestamps endpoint ++ [now]) ∧
    (∀ (evs : List MetricEvent) (e : String),
        (recordAll evs).requestCounts e = ((recordAll evs).latencies e).length ∧
        (recordAll evs).latencies e
            = (evs.filter (fun ev => ev.endpoint == e)).map (fun ev => ev.data.duration)) := by
  constructor
  · intro st endpoint d now
    constructor <;> simp [recordRequest]
  · intro evs e
    refine ⟨?_, recordAll_latencies evs e⟩
    rw [recordAll_requestCounts, recordAll_latencies, List.length_map,
      ← List.countP_eq_length_filter]

/-! ### C8: batch size -/

theorem length_filterMap_of_isSome {α β : Type} (f : α → Option β) :
    ∀ l : List α, (∀ x ∈ l, (f x).isSome) → (l.filterMap f).length = l.length := by
  intro l
  induction l with
  | nil => intro _; rfl
  | cons x rest ih =>
    intro h
    obtain ⟨b, hb⟩ := Option.isSome_iff_exists.mp (h x (by simp))
    rw [List.filterMap_cons, hb, List.length_cons, List.length_cons,
      ih (fun y hy => h y (by simp [hy]))]

theorem totalWeight_requestWeightsMethods :
    totalWeight requestWeightsMethods = 100 := by
  norm_num [totalWeight, requestWeightsMethods]

theorem selectLoop_requestWeights_zero :
    selectLoop requestWeightsMethods 0 = some "eth_getblockbynumber" := by
  norm_num [selectLoop, requestWeightsMethods]

theorem selectLoop_requestWeights_91 :
    selectLoop requestWeightsMethods 91 = some "other" := by
  norm_num [selectLoop, requestWeightsMethods]

/-- C8 (amended): `generateBatch` returns *at most* `batchSize` descriptors
(one per draw, minus the draws whose method has no template — `'other'`
carries weight 9 but no template, and such draws are filtered out); it
returns exactly `batchSize` descriptors precisely when every draw selects a
templated method; and sampling is with replacement — the same method may
repeat within a batch. -/
theorem generateBatch_size :
    (∀ (batchSize : ℕ) (source : ℕ → ℚ),
        (generateBatch batchSize source).length ≤ batchSize) ∧
    (∀ (batchSize : ℕ) (source : ℕ → ℚ),
        (∀ i < batchSize,
          ((selectLoop requestWeightsMethods
              (source i * totalWeight requestWeightsMethods)).bind
            (fun m => (lookupTemplate m).map
              (fun httpMethod => RequestDescriptor.mk httpMethod m))).isSome) →
        (generateBatch batchSize source).length = batchSize) ∧
    generateBatch 2 (fun _ => 0)
      = [⟨"POST", "eth_getblockbynumber"⟩, ⟨"POST", "eth_getblockbynumber"⟩] := by
  refine ⟨?_, ?_, ?_⟩
  · intro batchSize source
    unfold generateBatch generateRequestSequence
    rw [List.filterMap_filterMap]
    calc ((List.range batchSize).filterMap _).length
        ≤ (List.range batchSize).length := List.length_filterMap_le _ _
      _ = batchSize := List.length_range batchSize
  · intro batchSize source h
    unfold generateBatch generateRequestSequence
    rw [List.filterMap_filterMap,
      length_filterMap_of_isSome _ _ (fun i hi => h i (List.mem_range.mp hi)),
      List.length_range]
  · unfold generateBatch generateRequestSequence
    rw [show List.range 2 = [0, 1] from rfl]
    simp [zero_mul, selectLoop_requestWeights_zero, lookupTemplate, templates]

/-- C8 witness: a concrete batch of 2 draws that both select templated
methods comes back with exactly 2 descriptors. -/
theorem generateBatch_size_witness :
    (generateBatch 3 (fun _ => 1 / 2)).length ≤ 3 ∧
    ((∀ i < 2,
        ((selectLoop requestWeightsMethods
            ((fun _ => (0 : ℚ)) i * totalWeight requestWeightsMethods)).bind
          (fun m => (lookupTemplate m).map
            (fun httpMethod => RequestDescriptor.mk httpMethod m))).isSome) ∧
      (generateBatch 2 (fun _ => 0)).length = 2) :=
  ⟨generateBatch_size.1 3 (fun _ => 1 / 2),
   ⟨fun i _ => by
      simp [zero_mul, selectLoop_requestWeights_zero, lookupTemplate, templates],
    generateBatch_size.2.1 2 (fun _ => 0) (fun i _ => by
      simp [zero_mul, selectLoop_requestWeights_zero, lookupTemplate, templates])⟩⟩

/-- C8 counterexample: with configured batch size 1 and a draw of 0.91 the
sampled method is `'other'`, which has no template, so the returned batch
has 0 descriptors — not the claimed fixed size 1. -/
theorem generateBatch_size_counterexample :
    (generateBatch 1 (fun _ => 91 / 100)).length ≠ 1 := by
  have h : generateBatch 1 (fun _ => 91 / 100) = [] := by
    unfold generateBatch generateRequestSequence
    rw [show List.range 1 = [0] from rfl]
    have hdraw : (91 : ℚ) / 100 * totalWeight requestWeightsMethods = 91 := by
      rw [totalWeight_requestWeightsMethods]
      norm_num
    simp [hdraw, selectLoop_requestWeights_91, lookupTemplate, templates]
  rw [h]
  decide

/-! ### C9: determinism under a supplied random source -/

/-- C9: `generateRequestSequence(n)` is a function of the `n` values it
consumes from the supplied random source and of nothing else: two runs
whose sources agree on the consumed prefix produce identical method
sequences. -/
theorem generateRequestSequence_deterministic :
    ∀ (methods : List (String × ℚ)) (n : ℕ) (s₁ s₂ : ℕ → ℚ),
      (∀ i, i < n → s₁ i = s₂ i) →
      generateRequestSequence methods n s₁ = generateRequestSequence methods n s₂ := by
  intro methods n s₁ s₂ h
  unfold generateRequestSequence
  apply List.filterMap_congr
  intro i hi
  rw [h i (List.mem_range.mp hi)]

/-- A random source drawing one half then one third, then junk. -/
def sourceA : ℕ → ℚ :=
  fun i => if i = 0 then 1 / 2 else if i = 1 then 1 / 3 else 0

/-- A second source agreeing with `sourceA` on its first two values only. -/
def sourceB : ℕ → ℚ :=
  fun i => if i = 0 then 1 / 2 else if i = 1 then 1 / 3 else 7 / 9

/-- C9 witness: two concrete sources agreeing on the two consumed draws
produce the same two-request sequence even though they differ later. -/
theorem generateRequestSequence_deterministic_witness :
    (∀ i, i < 2 → sourceA i = sourceB i) ∧
    generateRequestSequence requestWeightsMethods 2 sourceA
      = generateRequestSequence requestWeightsMethods 2 sourceB :=
  ⟨fun i hi => by interval_cases i <;> rfl,
   generateRequestSequence_deterministic requestWeightsMethods 2 sourceA sourceB
     (fun i hi => by interval_cases i <;> rfl)⟩

end NodeTest
